import Mathlib

/-!
Verification of the stratosphere-engine ingestion, deduplication, enrichment and
scoring logic.

Strings are modelled as `List Char` (`Str`).  The Python string operations used
by the code (`str.lower`, `str.strip`, `str.replace`, the `in` substring test,
`str.split("/")[-1]`, `urllib.parse.urlparse`) are given faithful executable
models below; machine-level concerns (Unicode beyond ASCII case mapping) are out
of scope, matching the ASCII identifiers the code manipulates.

The data model follows `src/storage/models.py` (`Lead`, `LeadSource`), the
ingestion path follows `StratosphereEngine._process_lead` and
`StratosphereEngine._run_collection_phase` in `src/core/engine.py`, and the
enrichment path follows `EnrichmentPipeline.process_lead` / `score_lead_v2` in
`src/enrichment/pipeline.py`.  Network effects (website scraping, handle
search) are supplied by an explicit environment of oracles.
-/

abbrev Str := List Char

/-- Python `str.lower()` restricted to ASCII: `Char.toLower` maps `A`-`Z` to
`a`-`z` and fixes everything else, exactly as CPython does on ASCII text. -/
def pyLower (s : Str) : Str := s.map Char.toLower

/-- Python whitespace for `str.strip()`. -/
def isSpaceC (c : Char) : Bool :=
  c.toNat = 32 || c.toNat = 9 || c.toNat = 10 || c.toNat = 13 || c.toNat = 11 || c.toNat = 12

/-- Python `str.strip()`: drop whitespace from both ends. -/
def pyStrip (s : Str) : Str :=
  ((s.dropWhile isSpaceC).reverse.dropWhile isSpaceC).reverse

/-- Python `pat in s` substring test. -/
def isSub (p : Str) : Str → Bool
  | [] => p.isEmpty
  | c :: t => p.isPrefixOf (c :: t) || isSub p t

/-- One fuel-measured step of Python `str.replace(pat, rep)`: scan left to
right, replacing non-overlapping occurrences.  The fuel is an upper bound on
the number of characters consumed; `pyReplace` supplies `s.length`. -/
def pyReplaceAux (pat rep : Str) : Nat → Str → Str
  | 0, s => s
  | fuel + 1, s =>
    if pat ≠ [] ∧ pat.isPrefixOf s then
      rep ++ pyReplaceAux pat rep fuel (s.drop pat.length)
    else
      match s with
      | [] => []
      | c :: t => c :: pyReplaceAux pat rep fuel t

/-- Python `s.replace(pat, rep)` (for the non-empty patterns the code uses). -/
def pyReplace (pat rep s : Str) : Str := pyReplaceAux pat rep s.length s

/-- Python `s.split("/")[-1]`: the suffix after the last `/` (the whole string
when no `/` occurs). -/
def lastSeg (s : Str) : Str := (s.reverse.takeWhile (fun c => c ≠ '/')).reverse

/-- Characters allowed in a URL scheme by `urllib.parse`. -/
def isSchemeChar (c : Char) : Bool :=
  c.isAlpha || c.isDigit || c = '+' || c = '-' || c = '.'

/-- Characters that end the netloc component in `urllib.parse`. -/
def isNetlocEnd (c : Char) : Bool := c = '/' || c = '?' || c = '#'

structure UrlParts where
  scheme : Str
  netloc : Str
deriving Repr, DecidableEq

/-- Netloc extraction of `urllib.parse.urlsplit`: present only after a leading
`//`, running up to the first `/`, `?` or `#`. -/
def netlocOf : Str → Str
  | '/' :: '/' :: r => r.takeWhile (fun c => !isNetlocEnd c)
  | _ => []

/-- Model of `urllib.parse.urlparse` restricted to the `scheme` and `netloc`
components the code reads.  A scheme is split off at the first `:` when the
part before it is non-empty, starts with a letter and consists of scheme
characters; otherwise the whole input is parsed for a netloc. -/
def urlparse (s : Str) : UrlParts :=
  let pre := s.takeWhile (fun c => c ≠ ':')
  let rest := s.dropWhile (fun c => c ≠ ':')
  match rest with
  | ':' :: tl =>
    match pre with
    | [] => { scheme := [], netloc := netlocOf s }
    | c :: cs =>
      if c.isAlpha ∧ (c :: cs).all isSchemeChar then
        { scheme := pyLower (c :: cs), netloc := netlocOf tl }
      else
        { scheme := [], netloc := netlocOf s }
  | _ => { scheme := [], netloc := netlocOf s }

/-- Python truthiness of an optional string: `None` and `""` are falsy. -/
def tr : Option Str → Bool
  | none => false
  | some s => !s.isEmpty

/-- Python `str.capitalize()`: first character upper-cased, the rest lowered. -/
def pyCapitalize : Str → Str
  | [] => []
  | c :: t => c.toUpper :: pyLower t

/-- Hex digit for percent-encoding (upper case, as `urllib.parse.quote`). -/
def hexDigit (n : Nat) : Char :=
  if n < 10 then Char.ofNat (48 + n) else Char.ofNat (55 + n)

/-- `urllib.parse.quote` on ASCII text with the default safe set `"/"`. -/
def pyQuote (s : Str) : Str :=
  s.flatMap (fun c =>
    if c.isAlphanum || c = '_' || c = '.' || c = '-' || c = '~' || c = '/' then [c]
    else ['%', hexDigit (c.toNat / 16), hexDigit (c.toNat % 16)])

/-! ## Data model (src/storage/models.py) -/

/-- A row of the `leads` table.  Timestamp bookkeeping columns
(`created_at`, `updated_at`, `last_contacted_at`) and free-text enrichment
blobs not read by the verified logic are omitted; `launch_date` is modelled as
a day number. -/
structure Lead where
  id : Nat
  project_name : Str
  domain : Option Str
  normalized_domain : Option Str
  twitter_handle : Option Str
  normalized_handle : Option Str
  telegram_channel : Option Str
  status : Str
  score : Nat
  bucket : Option Str
  reject_reason : Option Str
  source_counts : Nat
  email : Option Str
  discord_url : Option Str
  telegram_url : Option Str
  launch_date : Option Int
  description : Str
  profile_image_url : Option Str
  run_id : Str
deriving Repr, DecidableEq

/-- A row of the `lead_sources` table (a source sighting). -/
structure LeadSource where
  lead_id : Nat
  source_name : Str
  source_url : Option Str
deriving Repr, DecidableEq

/-- The `RawLead` dataclass of `src/collectors/base.py`.  `extra_data` is the
free-form metadata dictionary; its values are strings or numbers. -/
inductive EVal where
  | str (s : Str)
  | num (n : Nat)
deriving Repr, DecidableEq

structure Raw where
  name : Str
  source : Str
  website : Option Str
  twitter_handle : Option Str
  profile_image_url : Option Str
  extra_data : List (Str × EVal)
deriving Repr, DecidableEq

/-- Python truthiness of an `extra_data` value. -/
def evTruthy : EVal → Bool
  | .str s => !s.isEmpty
  | .num n => n ≠ 0

/-- Python `str(v)` of an `extra_data` value. -/
def evToStr : EVal → Str
  | .str s => s
  | .num n => Nat.toDigits 10 n

/-- `dict.get` on the modelled `extra_data`. -/
def alistGet (m : List (Str × EVal)) (k : Str) : Option EVal :=
  (m.find? (fun p => p.1 == k)).map (·.2)

/-- The database session state: lead rows, sighting rows, and the next
auto-increment id. -/
structure Store where
  leads : List Lead
  sightings : List LeadSource
  nextId : Nat
deriving Repr, DecidableEq

/-- The per-run counters of `StratosphereEngine.state["stats"]`. -/
structure Stats where
  new_added : Nat
  duplicates_skipped : Nat
  failed_ingestion : Nat
  total_scraped : Nat
  loops : Nat
deriving Repr, DecidableEq

structure EngState where
  store : Store
  stats : Stats
deriving Repr, DecidableEq

def initState : EngState :=
  { store := { leads := [], sightings := [], nextId := 1 }
    stats := { new_added := 0, duplicates_skipped := 0, failed_ingestion := 0,
               total_scraped := 0, loops := 0 } }

/-- Results of `WebsiteScraper`/`SocialExtractor` for one page, as consumed at
`pipeline.py` lines 49-56. -/
structure Socials where
  twitter : Option Str
  discord : Option Str
  telegram : Option Str
  email : Option Str
deriving Repr, DecidableEq

/-- External collaborators of the enrichment pipeline: `fetch_html` composed
with `extract_all`, and `search_x_handle`. -/
structure Env where
  scrape : Str → Socials
  searchHandle : Str → Str → Option Str

/-! ## Normalizer (engine.py lines 369-383, pipeline.py lines 27-33, 68) -/

/-- Domain normalization of `_process_lead` (engine.py 372-378): prepend
`https://` unless `"http"` occurs in the URL, parse, take the netloc, strip
`"www."`, lower-case. -/
def engNormDomain (w : Str) : Str :=
  let w' := if isSub "http".data w then w else "https://".data ++ w
  pyLower (pyReplace "www.".data [] (urlparse w').netloc)

/-- Handle normalization of `_process_lead` (engine.py 380-383): lower-case,
drop `@`, strip, then take the last path segment when the value still looks
like a profile URL. -/
def engNormHandle (h : Str) : Str :=
  let s := pyStrip (pyReplace "@".data [] (pyLower h))
  let s := if isSub "twitter.com/".data s then lastSeg s else s
  if isSub "x.com/".data s then lastSeg s else s

/-- URL fixup of the enrichment pipeline (pipeline.py 29-32): prepend
`https://` only when parsing finds no scheme. -/
def pipeFixUrl (d : Str) : Str :=
  if (urlparse d).scheme = [] then "https://".data ++ d else d

/-- Domain normalization of the enrichment pipeline (pipeline.py 33): netloc
with `"www."` stripped — no lower-casing. -/
def pipeNormDomain (d : Str) : Str :=
  pyReplace "www.".data [] (urlparse (pipeFixUrl d)).netloc

/-- Handle normalization of the enrichment pipeline (pipeline.py 68): plain
lower-casing — the `@` prefix is kept. -/
def pipeNormHandle (h : Str) : Str := pyLower h

/-! ## Scoring & bucketing (pipeline.py, score_lead_v2, lines 82-118) -/

/-- `EnrichmentPipeline.score_lead_v2`: +30 for a website, +40 for an X handle,
+20 for a telegram url, +10 for an email, capped at 100; then the bucket/status
rules, and `reject_reason = "Missing X"` when the handle is absent. -/
def scoreLeadV2 (lead : Lead) : Lead :=
  let has_site := tr lead.domain
  let has_x := tr lead.twitter_handle
  let score :=
    (if has_site then 30 else 0) + (if has_x then 40 else 0) +
    (if tr lead.telegram_url then 20 else 0) + (if tr lead.email then 10 else 0)
  let lead := { lead with score := min score 100 }
  let lead :=
    if has_site && has_x then
      { lead with bucket := some "READY_TO_DM".data, status := "Qualified".data }
    else if has_site then
      { lead with bucket := some "NEEDS_ALT_OUTREACH".data, status := "Qualified".data }
    else
      { lead with bucket := some "MANUAL_CHECK".data, status := "Enriched".data }
  if !has_x then { lead with reject_reason := some "Missing X".data } else lead

/-! ## Enrichment pipeline (pipeline.py, process_lead, lines 24-80) -/

/-- Step 0 of `process_lead` (lines 27-33): fix up the raw URL and recompute
`normalized_domain`. -/
def pipeStep0 (lead : Lead) : Lead :=
  match lead.domain with
  | none => lead
  | some d =>
    if d.isEmpty then lead
    else
      let d' := pipeFixUrl d
      { lead with domain := some d', normalized_domain := some (pipeNormDomain d) }

/-- The duplicate-domain query of lines 36-40: another lead holds the same
`normalized_domain`. -/
def domConflict (leads : List Lead) (lead : Lead) : Bool :=
  tr lead.normalized_domain &&
    leads.any (fun o => o.normalized_domain == lead.normalized_domain && o.id ≠ lead.id)

/-- The duplicate-handle query of lines 70-73. -/
def handleConflict (leads : List Lead) (lead : Lead) : Bool :=
  tr lead.normalized_handle &&
    leads.any (fun o => o.normalized_handle == lead.normalized_handle && o.id ≠ lead.id)

/-- Step 1 of `process_lead` (lines 48-56): scrape the website and copy any
truthy contact fields over the lead. -/
def pipeScrape (env : Env) (lead : Lead) : Lead :=
  if tr lead.domain then
    let socials := env.scrape (lead.domain.getD [])
    let lead := match socials.twitter with
      | some t => if !t.isEmpty then { lead with twitter_handle := some t } else lead
      | none => lead
    let lead := match socials.discord with
      | some t => if !t.isEmpty then { lead with discord_url := some t } else lead
      | none => lead
    let lead := match socials.telegram with
      | some t => if !t.isEmpty then { lead with telegram_url := some t } else lead
      | none => lead
    match socials.email with
    | some t => if !t.isEmpty then { lead with email := some t } else lead
    | none => lead
  else lead

/-- Step 2 of `process_lead` (lines 59-64): fallback X-handle search. -/
def pipeSearch (env : Env) (lead : Lead) : Lead :=
  if !tr lead.twitter_handle && !lead.project_name.isEmpty then
    match env.searchHandle lead.project_name (lead.domain.getD []) with
    | some h => if !h.isEmpty then { lead with twitter_handle := some h } else lead
    | none => lead
  else lead

/-- `EnrichmentPipeline.process_lead` over the rows visible to its queries.
Early returns on the two duplicate checks are modelled by the nested
conditionals; the lead itself is excluded from each query by the `id` test. -/
def pipeProcess (env : Env) (leads : List Lead) (lead0 : Lead) : Lead :=
  let lead1 := pipeStep0 lead0
  if domConflict leads lead1 then
    { lead1 with status := "Disqualified".data, reject_reason := some "Duplicate Domain".data }
  else
    let lead2 := pipeScrape env lead1
    let lead3 := pipeSearch env lead2
    if tr lead3.twitter_handle then
      let lead4 := { lead3 with
        normalized_handle := some (pipeNormHandle (lead3.twitter_handle.getD [])) }
      if handleConflict leads lead4 then
        { lead4 with status := "Disqualified".data, reject_reason := some "Duplicate Handle".data }
      else scoreLeadV2 lead4
    else scoreLeadV2 lead3

/-! ## Deduplication and ingestion (engine.py, _process_lead, lines 362-444) -/

/-- The normalized website URL of a candidate (engine.py 372-374): only
computed when `raw.website` is truthy, with `https://` prepended unless
`"http"` occurs somewhere in the URL. -/
def candWebsite (raw : Raw) : Option Str :=
  match raw.website with
  | none => none
  | some w =>
    if w.isEmpty then some w
    else some (if isSub "http".data w then w else "https://".data ++ w)

/-- The candidate's normalized domain key (engine.py 369-378). -/
def candNormDomain (raw : Raw) : Option Str :=
  match raw.website with
  | none => none
  | some w => if w.isEmpty then none else some (engNormDomain w)

/-- The candidate's normalized handle key (engine.py 370-383). -/
def candNormHandle (raw : Raw) : Option Str :=
  match raw.twitter_handle with
  | none => none
  | some h => if h.isEmpty then none else some (engNormHandle h)

def findByHandle (leads : List Lead) (h : Str) : Option Lead :=
  leads.find? (fun l => l.normalized_handle == some h)

def findByDomain (leads : List Lead) (d : Str) : Option Lead :=
  leads.find? (fun l => l.normalized_domain == some d)

/-- The duplicate lookup of `_process_lead` (engine.py 386-390): by handle
first when the handle key is truthy, then by domain. -/
def findExisting (leads : List Lead) (nh nd : Option Str) : Option Lead :=
  let byHandle := match nh with
    | some h => if h.isEmpty then none else findByHandle leads h
    | none => none
  match byHandle with
  | some l => some l
  | none =>
    match nd with
    | some d => if d.isEmpty then none else findByDomain leads d
    | none => none

/-- The description construction of engine.py 396-404. -/
def candDescription (raw : Raw) : Str :=
  let descText := match alistGet raw.extra_data "desc".data with
    | some v => if evTruthy v then some v else none
    | none => none
  match descText with
  | some v => (evToStr v).take 500
  | none =>
    let parts := (raw.extra_data.filter (fun p =>
        p.1 ≠ "id".data ∧ p.1 ≠ "chainK".data ∧ p.1 ≠ "symbol".data ∧ p.1 ≠ "gecko_id".data)).map
      (fun p => pyCapitalize p.1 ++ ": ".data ++ evToStr p.2)
    if parts.isEmpty then "High-signal project.".data
    else (List.intercalate ", ".data parts).take 500

/-- The profile-image fallback chain of engine.py 413-415. -/
def candProfileImage (raw : Raw) (normHandle : Option Str) : Str :=
  match raw.profile_image_url with
  | some p => if !p.isEmpty then p else candProfileImageFallback raw normHandle
  | none => candProfileImageFallback raw normHandle
where
  candProfileImageFallback (raw : Raw) (normHandle : Option Str) : Str :=
    if tr normHandle then "https://unavatar.io/twitter/".data ++ normHandle.getD []
    else "https://ui-avatars.com/api/?name=".data ++ pyQuote raw.name ++
      "&background=random&color=fff".data

/-- The new Lead record built at engine.py 407-422. -/
def newLead (raw : Raw) (runId : Str) (id : Nat) : Lead :=
  let nh := candNormHandle raw
  { id := id
    project_name := raw.name.take 100
    domain := candWebsite raw
    normalized_domain := candNormDomain raw
    twitter_handle := if tr nh then some ('@' :: nh.getD []) else none
    normalized_handle := nh
    telegram_channel := none
    status := "New".data
    score := match alistGet raw.extra_data "activity_score".data with
      | some (.num n) => n
      | _ => 0
    bucket := none
    reject_reason := none
    source_counts := 1
    email := none
    discord_url := none
    telegram_url := none
    launch_date := none
    description := candDescription raw
    profile_image_url := some (candProfileImage raw nh)
    run_id := runId }

/-- One UNIQUE key column of the `leads` table: flushing `row` clashes on the
column `f` when another row already holds the same non-NULL value (SQL NULLs
are exempt from UNIQUE; the empty string is an ordinary value). -/
def keyClash (f : Lead → Option Str) (others : List Lead) (row : Lead) : Bool :=
  match f row with
  | none => false
  | some v => others.any (fun o => f o == some v)

/-- The UNIQUE constraints the schema declares on `normalized_domain` and
`normalized_handle` (models.py 12-13) and creates via
`Base.metadata.create_all` (api/main.py 27): committing `row` against the
committed rows `others` raises `IntegrityError` when either key column
clashes.  `telegram_channel` (models.py 48) is indexed but not unique, so it
does not participate. -/
def commitViolates (others : List Lead) (row : Lead) : Bool :=
  keyClash (fun l => l.normalized_domain) others row ||
  keyClash (fun l => l.normalized_handle) others row

/-- `StratosphereEngine._process_lead`.  Returns the updated engine state and
the `is_new` flag, tracking the committed database state across the two
`db.commit()` calls.  `raiseDup` injects an external failure of
`db.add`/`db.commit` (engine.py 423-424, e.g. a concurrent duplicate insert);
a genuine UNIQUE-constraint violation at that first commit takes the same
generic handler (engine.py 441-444): roll back, count a failed ingestion,
return `False`.  The enrichment commit (engine.py 432) sits inside its own
`try`: on an `IntegrityError` the enrichment update is not persisted and the
handler at engine.py 434 swallows the error, so the committed store keeps the
freshly inserted row unchanged (the later `PendingRollbackError` cleanup of
the poisoned session only rolls back, leaving the committed rows as modelled
here). -/
def processLead (env : Env) (raiseDup : Bool) (st : EngState) (raw : Raw) (runId : Str) :
    EngState × Bool :=
  if !tr raw.website && !tr raw.twitter_handle then (st, false)
  else
    let nd := candNormDomain raw
    let nh := candNormHandle raw
    match findExisting st.store.leads nh nd with
    | some _ =>
      ({ st with stats := { st.stats with
          duplicates_skipped := st.stats.duplicates_skipped + 1 } }, false)
    | none =>
      if raiseDup then
        ({ st with stats := { st.stats with
            failed_ingestion := st.stats.failed_ingestion + 1 } }, false)
      else
        let lead := newLead raw runId st.store.nextId
        if commitViolates st.store.leads lead then
          ({ st with stats := { st.stats with
              failed_ingestion := st.stats.failed_ingestion + 1 } }, false)
        else
          let leads1 := st.store.leads ++ [lead]
          let lead' := pipeProcess env leads1 lead
          let leads2 :=
            if commitViolates st.store.leads lead' then leads1
            else leads1.map (fun l => if l.id = lead.id then lead' else l)
          ({ store := { leads := leads2, sightings := st.store.sightings,
                        nextId := st.store.nextId + 1 }
             stats := { st.stats with new_added := st.stats.new_added + 1 } }, true)

/-! ## Collection loop (engine.py, _run_collection_phase, lines 212-360) -/

/-- The target of a collection run, hard-coded at engine.py 260. -/
def TARGET_NEW_LEADS : Nat := 50

/-- The inner candidate loop (engine.py 309-315): process each raw candidate
unless the target is already met; track whether any candidate was new. -/
def processBatch (env : Env) (runId : Str) (st : EngState) (raws : List Raw) :
    EngState × Bool :=
  raws.foldl
    (fun acc raw =>
      if acc.1.stats.new_added ≥ TARGET_NEW_LEADS then acc
      else
        let r := processLead env false acc.1 raw runId
        (r.1, acc.2 || r.2))
    (st, false)

/-- One round of the main batch loop (engine.py 270-352): bump the loop
counter, collect from the source adapter, process the batch, and retry once
with a variant query when the adapter returned nothing.  The source adapter is
modelled as a deterministic list of candidates per query; both the primary and
the retry query yield `source`. -/
def roundStep (env : Env) (source : List Raw) (runId : Str) (st : EngState) : EngState :=
  let st := { st with stats := { st.stats with loops := st.stats.loops + 1 } }
  let fst := if source.length > 0 then processBatch env runId st source else (st, false)
  if !fst.2 then
    if source.length = 0 then
      (if source.length > 0 then processBatch env runId fst.1 source else fst).1
    else fst.1
  else fst.1

/-- The main batch loop of `_run_collection_phase`: while fewer than
`TARGET_NEW_LEADS` candidates were added, run a round, stopping when the loop
counter passes the safety limit of 40 (engine.py 350-352).  Each round
increments `loops` and the loop breaks once `loops > 40`, so 42 rounds of fuel
are never exhausted; fuel keeps the recursion structural. -/
def runCollect (env : Env) (source : List Raw) (runId : Str) : Nat → EngState → EngState
  | 0, st => st
  | fuel + 1, st =>
    if st.stats.new_added < TARGET_NEW_LEADS then
      let st' := roundStep env source runId st
      if st'.stats.loops > 40 then st'
      else runCollect env source runId fuel st'
    else st

/-- `_run_collection_phase` restricted to its batch loop. -/
def runCollectionPhase (env : Env) (source : List Raw) (runId : Str) : EngState :=
  runCollect env source runId 100 initState

/-! ## Spec-side comparison functions

The following definitions are NOT read from the source: each is modelled from
the spec sentence of the claim it serves, to be compared against the
source-derived functions above. -/

def findByChannel (leads : List Lead) (c : Str) : Option Lead :=
  leads.find? (fun l => l.telegram_channel == some c)

/-- Modelled from the spec: the §4.3 lookup order `normalized_channel` first,
then `normalized_handle`, then `normalized_domain` (claim C3). -/
def lookupSpecC3 (leads : List Lead) (nc nh nd : Option Str) : Option Lead :=
  let byChannel := match nc with
    | some c => if c.isEmpty then none else findByChannel leads c
    | none => none
  match byChannel with
  | some l => some l
  | none => findExisting leads nh nd

/-- Modelled from the spec: the freshness test of §4.4 — `launch_date` in the
future or within the last 7 days (claims C5, C6). -/
def freshSpec (now : Int) (lead : Lead) : Bool :=
  match lead.launch_date with
  | some t => now < t || (now - t ≤ 7 && t ≤ now)
  | none => false

/-- Modelled from the spec: the claim C5 point schedule — +30 domain,
+40 handle, +20 messaging channel, +10 email, +10 freshness, capped at 100. -/
def scoreSpecC5 (now : Int) (lead : Lead) : Nat :=
  min ((if tr lead.domain then 30 else 0) + (if tr lead.twitter_handle then 40 else 0) +
    (if tr lead.telegram_url then 20 else 0) + (if tr lead.email then 10 else 0) +
    (if freshSpec now lead then 10 else 0)) 100

/-- Modelled from the spec: the claim C6 bucket decision, first match wins,
with the `UPCOMING_WATCHLIST` branch for a future `launch_date`. -/
def bucketSpecC6 (now : Int) (lead : Lead) : Str :=
  if tr lead.domain && tr lead.twitter_handle then "READY_TO_DM".data
  else if tr lead.domain then "NEEDS_ALT_OUTREACH".data
  else if (match lead.launch_date with | some t => decide (now < t) | none => false) then
    "UPCOMING_WATCHLIST".data
  else "MANUAL_CHECK".data

/-! ## Concrete fixtures used by witnesses and counterexamples -/

/-- An environment whose scraper finds no socials and whose handle search
finds nothing. -/
def trivEnv : Env :=
  { scrape := fun _ => { twitter := none, discord := none, telegram := none, email := none }
    searchHandle := fun _ _ => none }

/-- A candidate carrying only the X handle `@Acme`. -/
def rawAcme : Raw :=
  { name := "Acme".data
    source := "x_keywords".data
    website := none
    twitter_handle := some "@Acme".data
    profile_image_url := none
    extra_data := [] }

/-- A candidate carrying only the website `acme.io`. -/
def rawSite : Raw :=
  { name := "Acme".data
    source := "search".data
    website := some "acme.io".data
    twitter_handle := none
    profile_image_url := none
    extra_data := [] }

/-- Three website-only candidates with distinct one-letter domains, the whole
yield of a saturated source adapter. -/
def rawA : Raw :=
  { name := "A".data, source := "s".data, website := some "a".data
    twitter_handle := none, profile_image_url := none, extra_data := [] }

def rawB : Raw :=
  { name := "B".data, source := "s".data, website := some "b".data
    twitter_handle := none, profile_image_url := none, extra_data := [] }

def rawC : Raw :=
  { name := "C".data, source := "s".data, website := some "c".data
    twitter_handle := none, profile_image_url := none, extra_data := [] }

/-- Run a list of candidates through `_process_lead` from an empty store. -/
def processAll (env : Env) (runId : Str) (raws : List Raw) : EngState :=
  raws.foldl (fun s raw => (processLead env false s raw runId).1) initState

/-- A lead row with every optional field empty. -/
def blankLead (id : Nat) : Lead :=
  { id := id, project_name := [], domain := none, normalized_domain := none
    twitter_handle := none, normalized_handle := none, telegram_channel := none
    status := "New".data, score := 0, bucket := none, reject_reason := none
    source_counts := 1, email := none, discord_url := none, telegram_url := none
    launch_date := none, description := [], profile_image_url := none, run_id := [] }

def leadChan : Lead := { blankLead 1 with telegram_channel := some "chan".data }

def leadHand : Lead := { blankLead 2 with normalized_handle := some "h".data }

def leadDom : Lead := { blankLead 3 with normalized_domain := some "d".data }

/-- The C4 store invariant the code actually maintains: every lead row has
`source_counts = 1` and the sighting table is empty. -/
def svInv (st : EngState) : Bool :=
  st.store.leads.all (fun l => l.source_counts == 1) && st.store.sightings.isEmpty

/-- No two rows of `leads` share an equal non-null value of the key column
`f`: each row is free of clashes with the rows after it. -/
def noDupKey (f : Lead → Option Str) : List Lead → Bool
  | [] => true
  | l :: t => !keyClash f t l && noDupKey f t

/-- The C1 store property: no two lead rows share a non-null
`normalized_domain`, `normalized_handle` or `telegram_channel`. -/
def storeUnique (st : EngState) : Bool :=
  noDupKey (fun l => l.normalized_domain) st.store.leads &&
  noDupKey (fun l => l.normalized_handle) st.store.leads &&
  noDupKey (fun l => l.telegram_channel) st.store.leads

/-- Auxiliary invariants threaded through the C1 proof: ids stay below the
auto-increment cursor, and the ingestion path never writes
`telegram_channel`. -/
def dbInv (st : EngState) : Bool :=
  st.store.leads.all (fun l => l.id < st.store.nextId) &&
  st.store.leads.all (fun l => l.telegram_channel == none) &&
  noDupKey (fun l => l.normalized_domain) st.store.leads &&
  noDupKey (fun l => l.normalized_handle) st.store.leads

/-- A lead whose only signal is an upcoming launch date (5 days from `now = 0`). -/
def freshLead : Lead := { blankLead 7 with launch_date := some 5 }

def leadDomAcme : Lead := { blankLead 11 with normalized_domain := some "acme.io".data }

def dupDomLead : Lead := { blankLead 12 with domain := some "https://acme.io".data }

def dupHandOther : Lead := { blankLead 13 with normalized_handle := some "@acme".data }

def dupHandLead : Lead := { blankLead 14 with twitter_handle := some "@Acme".data }

/-! ## Character-level lemmas -/

theorem char_toNat_ofNat (n : Nat) (h : n < 55296) : (Char.ofNat n).toNat = n := by
  have hv : n.isValidChar := Or.inl h
  rw [Char.ofNat, dif_pos hv]
  rfl

theorem char_ext {a b : Char} (h : a.toNat = b.toNat) : a = b :=
  Char.eq_of_val_eq (UInt32.ext h)

theorem char_eq_iff_toNat {a b : Char} : a = b ↔ a.toNat = b.toNat :=
  ⟨fun h => by rw [h], char_ext⟩

theorem toLower_toNat (c : Char) :
    c.toLower.toNat = if 65 ≤ c.toNat ∧ c.toNat ≤ 90 then c.toNat + 32 else c.toNat := by
  show (if c.toNat ≥ 65 ∧ c.toNat ≤ 90 then Char.ofNat (c.toNat + 32) else c).toNat = _
  by_cases h : 65 ≤ c.toNat ∧ c.toNat ≤ 90
  · rw [if_pos h, if_pos h, char_toNat_ofNat _ (by omega)]
  · rw [if_neg h, if_neg h]

theorem toLower_idem (c : Char) : c.toLower.toLower = c.toLower := by
  apply char_ext
  rw [toLower_toNat, toLower_toNat]
  by_cases h : 65 ≤ c.toNat ∧ c.toNat ≤ 90
  · rw [if_pos h, if_neg (by omega)]
  · rw [if_neg h, if_neg h]

/-! ## String-level lemmas -/

theorem pyLower_idem (s : Str) : pyLower (pyLower s) = pyLower s := by
  simp [pyLower, Function.comp, toLower_idem]

theorem mem_pyLower_fixed {c : Char} {s : Str} (h : c ∈ pyLower s) : c.toLower = c := by
  simp only [pyLower, List.mem_map] at h
  obtain ⟨d, _, rfl⟩ := h
  exact toLower_idem d

theorem pyLower_eq_self {s : Str} (h : ∀ c ∈ s, c.toLower = c) : pyLower s = s := by
  simp only [pyLower]
  induction s with
  | nil => rfl
  | cons c t ih =>
    simp only [List.map_cons]
    rw [h c (by simp), ih (fun d hd => h d (by simp [hd]))]

theorem pyLower_isEmpty (s : Str) : (pyLower s).isEmpty = s.isEmpty := by
  cases s <;> simp [pyLower]

theorem isPrefixOf_exists {p s : Str} (h : p.isPrefixOf s = true) : ∃ t, s = p ++ t := by
  induction p generalizing s with
  | nil => exact ⟨s, rfl⟩
  | cons a as ih =>
    cases s with
    | nil => simp [List.isPrefixOf] at h
    | cons b bs =>
      simp only [List.isPrefixOf, Bool.and_eq_true, beq_iff_eq] at h
      obtain ⟨t, ht⟩ := ih h.2
      exact ⟨t, by rw [h.1, List.cons_append, ht]⟩

theorem mem_of_isSub {p s : Str} (h : isSub p s = true) {c : Char} (hc : c ∈ p) : c ∈ s := by
  induction s with
  | nil =>
    simp only [isSub, List.isEmpty_iff] at h
    subst h; cases hc
  | cons b bs ih =>
    simp only [isSub, Bool.or_eq_true] at h
    rcases h with h | h
    · obtain ⟨t, ht⟩ := isPrefixOf_exists h
      rw [ht]
      exact List.mem_append_left _ hc
    · exact List.mem_cons_of_mem _ (ih h)

theorem isSub_of_mem {a : Char} {s : Str} (h : a ∈ s) : isSub [a] s = true := by
  induction s with
  | nil => cases h
  | cons b bs ih =>
    simp only [isSub, Bool.or_eq_true]
    rcases List.mem_cons.mp h with rfl | h
    · left; simp [List.isPrefixOf]
    · right; exact ih h

theorem isSub_single_not {a : Char} {s : Str} (h : a ∉ s) : isSub [a] s = false := by
  cases hs : isSub [a] s
  · rfl
  · exact absurd (mem_of_isSub hs (by simp)) h

theorem pyReplaceAux_not_sub {p r s : Str} (h : isSub p s = false) :
    ∀ fuel, pyReplaceAux p r fuel s = s := by
  intro fuel
  induction fuel generalizing s with
  | zero => rfl
  | succ fuel ih =>
    cases s with
    | nil =>
      have hp : p ≠ [] := by
        intro hp; rw [hp] at h; simp [isSub] at h
      simp only [pyReplaceAux]
      rw [if_neg]
      intro hc
      have := hc.2
      rcases isPrefixOf_exists this with ⟨t, ht⟩
      cases p with
      | nil => exact hp rfl
      | cons a as => simp at ht
    | cons c t =>
      simp only [isSub, Bool.or_eq_false_iff] at h
      simp only [pyReplaceAux]
      rw [if_neg (fun hc => by rw [h.1] at hc; exact Bool.false_ne_true hc.2)]
      rw [ih h.2]

theorem pyReplace_not_sub {p r s : Str} (h : isSub p s = false) : pyReplace p r s = s :=
  pyReplaceAux_not_sub h _

theorem mem_pyReplaceAux_del {p : Str} {c : Char} :
    ∀ {fuel : Nat} {s : Str}, c ∈ pyReplaceAux p [] fuel s → c ∈ s := by
  intro fuel
  induction fuel with
  | zero => intro s h; exact h
  | succ fuel ih =>
    intro s h
    simp only [pyReplaceAux] at h
    split at h
    · next hc =>
      simp only [List.nil_append] at h
      exact List.mem_of_mem_drop (ih h)
    · next hc =>
      cases s with
      | nil => cases h
      | cons b bs =>
        rcases List.mem_cons.mp h with rfl | h
        · exact List.mem_cons_self _ _
        · exact List.mem_cons_of_mem _ (ih h)

theorem mem_pyReplace_del {p s : Str} {c : Char} (h : c ∈ pyReplace p [] s) : c ∈ s :=
  mem_pyReplaceAux_del h

theorem single_isPrefixOf {a : Char} {s : Str} (h : [a].isPrefixOf s = true) :
    ∃ t, s = a :: t := by
  obtain ⟨t, ht⟩ := isPrefixOf_exists h
  exact ⟨t, ht⟩

theorem not_mem_pyReplaceAux_single {a : Char} :
    ∀ {fuel : Nat} {s : Str}, s.length ≤ fuel → a ∉ pyReplaceAux [a] [] fuel s := by
  intro fuel
  induction fuel with
  | zero =>
    intro s hl h
    have : s = [] := List.eq_nil_of_length_eq_zero (Nat.le_zero.mp hl)
    subst this; cases h
  | succ fuel ih =>
    intro s hl h
    simp only [pyReplaceAux] at h
    split at h
    · next hc =>
      obtain ⟨t, rfl⟩ := single_isPrefixOf hc.2
      simp only [List.nil_append, List.length_cons, List.length_nil, List.drop_succ_cons,
        List.drop_zero] at h hl
      exact ih (by omega) h
    · next hc =>
      cases s with
      | nil => cases h
      | cons b bs =>
        have hab : ¬ a = b := by
          intro hab
          exact hc ⟨by simp, by simp [hab, List.isPrefixOf]⟩
        rcases List.mem_cons.mp h with rfl | h
        · exact hab rfl
        · exact ih (by simpa using Nat.le_of_succ_le_succ hl) h

theorem not_mem_pyReplace_single {a : Char} {s : Str} : a ∉ pyReplace [a] [] s :=
  not_mem_pyReplaceAux_single (Nat.le_refl _)

theorem mem_pyStrip {c : Char} {s : Str} (h : c ∈ pyStrip s) : c ∈ s := by
  simp only [pyStrip, List.mem_reverse] at h
  have h1 := (List.dropWhile_sublist isSpaceC).subset h
  rw [List.mem_reverse] at h1
  exact (List.dropWhile_sublist isSpaceC).subset h1

theorem mem_lastSeg {c : Char} {s : Str} (h : c ∈ lastSeg s) : c ∈ s := by
  simp only [lastSeg, List.mem_reverse] at h
  have := (List.takeWhile_sublist _).subset h
  rwa [List.mem_reverse] at this

theorem lastSeg_no_slash {c : Char} {s : Str} (h : c ∈ lastSeg s) : c ≠ '/' := by
  simp only [lastSeg, List.mem_reverse] at h
  have := List.mem_takeWhile_imp h
  simpa using this

theorem takeWhile_eq_self {p : Char → Bool} {s : Str} (h : ∀ c ∈ s, p c = true) :
    s.takeWhile p = s :=
  List.takeWhile_eq_self_iff.mpr h

theorem mem_netlocOf {c : Char} {s : Str} (h : c ∈ netlocOf s) : isNetlocEnd c = false := by
  unfold netlocOf at h
  split at h
  · have := List.mem_takeWhile_imp h
    simpa using this
  · cases h

theorem mem_urlparse_netloc {c : Char} {s : Str} (h : c ∈ (urlparse s).netloc) :
    isNetlocEnd c = false := by
  unfold urlparse at h
  dsimp only at h
  split at h
  · split at h
    · exact mem_netlocOf h
    · split at h
      · exact mem_netlocOf h
      · exact mem_netlocOf h
  · exact mem_netlocOf h

theorem toLower_netlocEnd {d : Char} (h : isNetlocEnd d = false) :
    isNetlocEnd d.toLower = false := by
  by_cases hc : 65 ≤ d.toNat ∧ d.toNat ≤ 90
  · have h1 : d.toLower.toNat = d.toNat + 32 := by rw [toLower_toNat, if_pos hc]
    have h2 : d.toLower ≠ '/' := by
      intro he
      rw [char_eq_iff_toNat, h1, show ('/' : Char).toNat = 47 from rfl] at he
      omega
    have h3 : d.toLower ≠ '?' := by
      intro he
      rw [char_eq_iff_toNat, h1, show ('?' : Char).toNat = 63 from rfl] at he
      omega
    have h4 : d.toLower ≠ '#' := by
      intro he
      rw [char_eq_iff_toNat, h1, show ('#' : Char).toNat = 35 from rfl] at he
      omega
    unfold isNetlocEnd
    simp [h2, h3, h4]
  · have h1 : d.toLower = d := char_ext (by rw [toLower_toNat, if_neg hc])
    rwa [h1]

theorem urlparse_https (v : Str) (h : ∀ c ∈ v, isNetlocEnd c = false) :
    urlparse ("https://".data ++ v) = { scheme := "https".data, netloc := v } := by
  have h1 : ("https://".data ++ v).takeWhile (fun c => c ≠ ':') = "https".data := by
    show List.takeWhile _ ('h' :: 't' :: 't' :: 'p' :: 's' :: ':' :: '/' :: '/' :: v) = _
    rw [List.takeWhile_cons_of_pos (by decide), List.takeWhile_cons_of_pos (by decide),
      List.takeWhile_cons_of_pos (by decide), List.takeWhile_cons_of_pos (by decide),
      List.takeWhile_cons_of_pos (by decide), List.takeWhile_cons_of_neg (by decide)]
  have h2 : ("https://".data ++ v).dropWhile (fun c => c ≠ ':') = ':' :: '/' :: '/' :: v := by
    show List.dropWhile _ ('h' :: 't' :: 't' :: 'p' :: 's' :: ':' :: '/' :: '/' :: v) = _
    rw [List.dropWhile_cons_of_pos (by decide), List.dropWhile_cons_of_pos (by decide),
      List.dropWhile_cons_of_pos (by decide), List.dropWhile_cons_of_pos (by decide),
      List.dropWhile_cons_of_pos (by decide), List.dropWhile_cons_of_neg (by decide)]
  unfold urlparse
  simp only [h1, h2]
  rw [if_pos (by decide)]
  have h3 : netlocOf ('/' :: '/' :: v) = v := by
    unfold netlocOf
    exact takeWhile_eq_self (fun c hc => by simp [h c hc])
  rw [h3]
  have h4 : pyLower "https".data = "https".data := by decide
  simp [h4]

theorem engNormDomain_chars {w : Str} {c : Char} (h : c ∈ engNormDomain w) :
    isNetlocEnd c = false ∧ c.toLower = c := by
  simp only [engNormDomain, pyLower, List.mem_map] at h
  obtain ⟨d, hd, rfl⟩ := h
  have hd2 := mem_pyReplace_del hd
  exact ⟨toLower_netlocEnd (mem_urlparse_netloc hd2), toLower_idem d⟩

theorem engNormDomain_idem {w : Str}
    (hh : isSub "http".data (engNormDomain w) = false)
    (hw : isSub "www.".data (engNormDomain w) = false) :
    engNormDomain (engNormDomain w) = engNormDomain w := by
  have hchars : ∀ c ∈ engNormDomain w, isNetlocEnd c = false :=
    fun c hc => (engNormDomain_chars hc).1
  have hfix : ∀ c ∈ engNormDomain w, c.toLower = c :=
    fun c hc => (engNormDomain_chars hc).2
  conv_lhs => rw [engNormDomain]
  simp only [hh, Bool.false_eq_true, if_false]
  rw [urlparse_https _ hchars]
  rw [pyReplace_not_sub hw]
  exact pyLower_eq_self hfix

theorem pipeNormDomain_chars {w : Str} {c : Char} (h : c ∈ pipeNormDomain w) :
    isNetlocEnd c = false := by
  simp only [pipeNormDomain] at h
  exact mem_urlparse_netloc (mem_pyReplace_del h)

theorem pipeNormDomain_idem {w : Str}
    (hs : (urlparse (pipeNormDomain w)).scheme = [])
    (hw : isSub "www.".data (pipeNormDomain w) = false) :
    pipeNormDomain (pipeNormDomain w) = pipeNormDomain w := by
  have hchars : ∀ c ∈ pipeNormDomain w, isNetlocEnd c = false :=
    fun c hc => pipeNormDomain_chars hc
  conv_lhs => rw [pipeNormDomain, pipeFixUrl]
  rw [if_pos hs]
  rw [urlparse_https _ hchars]
  exact pyReplace_not_sub hw

theorem mem_engNormHandle {h0 : Str} {c : Char} (hc : c ∈ engNormHandle h0) :
    c.toLower = c ∧ c ≠ '@' := by
  have key : ∀ {d : Char}, d ∈ pyStrip (pyReplace "@".data [] (pyLower h0)) →
      d.toLower = d ∧ d ≠ '@' := by
    intro d hd
    have h1 := mem_pyStrip hd
    refine ⟨mem_pyLower_fixed (mem_pyReplace_del h1), ?_⟩
    intro hd2
    subst hd2
    exact not_mem_pyReplace_single h1
  simp only [engNormHandle] at hc
  split at hc
  · split at hc
    · exact key (mem_lastSeg (mem_lastSeg hc))
    · exact key (mem_lastSeg hc)
  · split at hc
    · exact key (mem_lastSeg hc)
    · exact key hc

theorem engNormHandle_cases (h0 : Str) :
    (isSub "twitter.com/".data (engNormHandle h0) = false ∧
     isSub "x.com/".data (engNormHandle h0) = false) ∨
    (∀ c ∈ engNormHandle h0, c ≠ '/') := by
  have hs : engNormHandle h0 =
      (if isSub "x.com/".data
          (if isSub "twitter.com/".data (pyStrip (pyReplace "@".data [] (pyLower h0))) then
            lastSeg (pyStrip (pyReplace "@".data [] (pyLower h0)))
          else pyStrip (pyReplace "@".data [] (pyLower h0))) then
        lastSeg
          (if isSub "twitter.com/".data (pyStrip (pyReplace "@".data [] (pyLower h0))) then
            lastSeg (pyStrip (pyReplace "@".data [] (pyLower h0)))
          else pyStrip (pyReplace "@".data [] (pyLower h0)))
      else
        (if isSub "twitter.com/".data (pyStrip (pyReplace "@".data [] (pyLower h0))) then
          lastSeg (pyStrip (pyReplace "@".data [] (pyLower h0)))
        else pyStrip (pyReplace "@".data [] (pyLower h0)))) := rfl
  by_cases c1 : isSub "twitter.com/".data (pyStrip (pyReplace "@".data [] (pyLower h0))) = true
  · right
    intro c hc
    rw [hs] at hc
    rw [if_pos c1] at hc
    by_cases c2 : isSub "x.com/".data
        (lastSeg (pyStrip (pyReplace "@".data [] (pyLower h0)))) = true
    · rw [if_pos c2] at hc
      exact lastSeg_no_slash hc
    · rw [if_neg c2] at hc
      exact lastSeg_no_slash hc
  · by_cases c2 : isSub "x.com/".data (pyStrip (pyReplace "@".data [] (pyLower h0))) = true
    · right
      intro c hc
      rw [hs] at hc
      rw [if_neg c1, if_pos c2] at hc
      exact lastSeg_no_slash hc
    · left
      have he : engNormHandle h0 = pyStrip (pyReplace "@".data [] (pyLower h0)) := by
        rw [hs, if_neg c1, if_neg c2]
      rw [he]
      exact ⟨Bool.not_eq_true _ ▸ eq_false_of_ne_true c1, eq_false_of_ne_true c2⟩

theorem engNormHandle_idem {h0 : Str} (hstrip : pyStrip (engNormHandle h0) = engNormHandle h0) :
    engNormHandle (engNormHandle h0) = engNormHandle h0 := by
  have hfix : ∀ c ∈ engNormHandle h0, c.toLower = c := fun c hc => (mem_engNormHandle hc).1
  have hat : '@' ∉ engNormHandle h0 := fun hc => (mem_engNormHandle hc).2 rfl
  have hs1 : pyStrip (pyReplace "@".data [] (pyLower (engNormHandle h0))) = engNormHandle h0 := by
    rw [pyLower_eq_self hfix, pyReplace_not_sub (isSub_single_not hat), hstrip]
  have hc1 : isSub "twitter.com/".data (engNormHandle h0) = false := by
    rcases engNormHandle_cases h0 with ⟨hc, _⟩ | hsl
    · exact hc
    · cases hx : isSub "twitter.com/".data (engNormHandle h0)
      · rfl
      · exact absurd (mem_of_isSub hx (by decide)) (fun hm => hsl _ hm rfl)
  have hc2 : isSub "x.com/".data (engNormHandle h0) = false := by
    rcases engNormHandle_cases h0 with ⟨_, hc⟩ | hsl
    · exact hc
    · cases hx : isSub "x.com/".data (engNormHandle h0)
      · rfl
      · exact absurd (mem_of_isSub hx (by decide)) (fun hm => hsl _ hm rfl)
  conv_lhs => rw [engNormHandle]
  simp only [hs1, hc1, hc2, Bool.false_eq_true, if_false]

/-! ## Field-preservation lemmas for the enrichment pipeline -/

theorem scoreLeadV2_source_counts (lead : Lead) :
    (scoreLeadV2 lead).source_counts = lead.source_counts := by
  simp only [scoreLeadV2]
  repeat' split
  all_goals rfl

theorem pipeStep0_source_counts (lead : Lead) :
    (pipeStep0 lead).source_counts = lead.source_counts := by
  simp only [pipeStep0]
  repeat' split
  all_goals rfl

theorem pipeScrape_source_counts (env : Env) (lead : Lead) :
    (pipeScrape env lead).source_counts = lead.source_counts := by
  simp only [pipeScrape]
  repeat' split
  all_goals rfl

theorem pipeSearch_source_counts (env : Env) (lead : Lead) :
    (pipeSearch env lead).source_counts = lead.source_counts := by
  simp only [pipeSearch]
  repeat' split
  all_goals rfl

theorem pipeProcess_source_counts (env : Env) (leads : List Lead) (lead : Lead) :
    (pipeProcess env leads lead).source_counts = lead.source_counts := by
  simp only [pipeProcess]
  repeat' split
  all_goals simp only [scoreLeadV2_source_counts, pipeSearch_source_counts,
    pipeScrape_source_counts, pipeStep0_source_counts]

theorem scoreLeadV2_id (lead : Lead) : (scoreLeadV2 lead).id = lead.id := by
  simp only [scoreLeadV2]
  repeat' split
  all_goals rfl

theorem pipeStep0_id (lead : Lead) : (pipeStep0 lead).id = lead.id := by
  simp only [pipeStep0]
  repeat' split
  all_goals rfl

theorem pipeScrape_id (env : Env) (lead : Lead) : (pipeScrape env lead).id = lead.id := by
  simp only [pipeScrape]
  repeat' split
  all_goals rfl

theorem pipeSearch_id (env : Env) (lead : Lead) : (pipeSearch env lead).id = lead.id := by
  simp only [pipeSearch]
  repeat' split
  all_goals rfl

theorem pipeProcess_id (env : Env) (leads : List Lead) (lead : Lead) :
    (pipeProcess env leads lead).id = lead.id := by
  simp only [pipeProcess]
  repeat' split
  all_goals simp only [scoreLeadV2_id, pipeSearch_id, pipeScrape_id, pipeStep0_id]

theorem scoreLeadV2_channel (lead : Lead) :
    (scoreLeadV2 lead).telegram_channel = lead.telegram_channel := by
  simp only [scoreLeadV2]
  repeat' split
  all_goals rfl

theorem pipeStep0_channel (lead : Lead) :
    (pipeStep0 lead).telegram_channel = lead.telegram_channel := by
  simp only [pipeStep0]
  repeat' split
  all_goals rfl

theorem pipeScrape_channel (env : Env) (lead : Lead) :
    (pipeScrape env lead).telegram_channel = lead.telegram_channel := by
  simp only [pipeScrape]
  repeat' split
  all_goals rfl

theorem pipeSearch_channel (env : Env) (lead : Lead) :
    (pipeSearch env lead).telegram_channel = lead.telegram_channel := by
  simp only [pipeSearch]
  repeat' split
  all_goals rfl

theorem pipeProcess_channel (env : Env) (leads : List Lead) (lead : Lead) :
    (pipeProcess env leads lead).telegram_channel = lead.telegram_channel := by
  simp only [pipeProcess]
  repeat' split
  all_goals simp only [scoreLeadV2_channel, pipeSearch_channel, pipeScrape_channel,
    pipeStep0_channel]

/-! ## Small bridging lemmas about the ingestion guards -/

theorem candNormDomain_falsy {raw : Raw} (h : tr raw.website = false) :
    candNormDomain raw = none := by
  unfold candNormDomain
  cases hw : raw.website with
  | none => rfl
  | some w =>
    rw [hw] at h
    simp only [tr, Bool.not_eq_false'] at h
    simp only [if_pos h]

theorem candNormHandle_falsy {raw : Raw} (h : tr raw.twitter_handle = false) :
    candNormHandle raw = none := by
  unfold candNormHandle
  cases hw : raw.twitter_handle with
  | none => rfl
  | some w =>
    rw [hw] at h
    simp only [tr, Bool.not_eq_false'] at h
    simp only [if_pos h]

/-! ## Claim theorems -/

/-- C2 counterexample: the claim says a candidate matching an existing lead is
merged — a SourceSighting is appended and empty fields are filled.  Feeding the
same website-only candidate twice, the second call returns `false`
("discarded"), the sighting table stays empty, the stored rows are untouched,
and `duplicates_skipped` is incremented (engine.py 392-394). -/
theorem C2_counterexample :
    ((processLead trivEnv false
        (processLead trivEnv false initState rawSite "r".data).1 rawSite "r".data).2 = false) ∧
    ((processLead trivEnv false
        (processLead trivEnv false initState rawSite "r".data).1 rawSite "r".data).1.store.sightings
      = []) ∧
    ((processLead trivEnv false
        (processLead trivEnv false initState rawSite "r".data).1 rawSite "r".data).1.store.leads
      = (processLead trivEnv false initState rawSite "r".data).1.store.leads) ∧
    ((processLead trivEnv false
        (processLead trivEnv false initState rawSite "r".data).1 rawSite "r".data).1.stats.duplicates_skipped
      = 1) := by
  decide

/-- C2 amended: whenever a processed candidate's normalized identity key
matches an existing Lead, `_process_lead` increments `duplicates_skipped` and
returns `False`; the store (rows and sightings alike) is left untouched — no
SourceSighting is appended, no field is copied, and the outcome is a discard,
not a merge. -/
theorem C2_amended_thm (env : Env) (rd : Bool) (st : EngState) (raw : Raw) (runId : Str)
    (hfound : (findExisting st.store.leads (candNormHandle raw) (candNormDomain raw)).isSome
      = true) :
    processLead env rd st raw runId =
      ({ st with stats :=
          { st.stats with duplicates_skipped := st.stats.duplicates_skipped + 1 } }, false) := by
  have hguard : (!tr raw.website && !tr raw.twitter_handle) = false := by
    cases hw : tr raw.website
    · cases hh : tr raw.twitter_handle
      · exfalso
        rw [candNormDomain_falsy hw, candNormHandle_falsy hh] at hfound
        simp [findExisting] at hfound
      · simp [hh]
    · simp [hw]
  unfold processLead
  rw [hguard]
  cases heq : findExisting st.store.leads (candNormHandle raw) (candNormDomain raw) with
  | none =>
    rw [heq] at hfound
    simp at hfound
  | some l =>
    simp only [Bool.false_eq_true, if_false, heq]

/-- Witness for C2: a store holding the lead for `acme.io` makes the matched
candidate a counted, store-preserving discard. -/
theorem C2_witness :
    processLead trivEnv false (processLead trivEnv false initState rawSite "r".data).1
        rawSite "r".data =
      ({ (processLead trivEnv false initState rawSite "r".data).1 with stats :=
          { (processLead trivEnv false initState rawSite "r".data).1.stats with
              duplicates_skipped :=
                (processLead trivEnv false initState rawSite "r".data).1.stats.duplicates_skipped
                  + 1 } }, false) :=
  C2_amended_thm trivEnv false _ rawSite "r".data (by decide)

/-- C3 counterexample: the claim says lookups run channel-first
(channel > handle > domain).  On a store where lead 1 matches by channel and
lead 2 matches by handle, the claimed order picks lead 1, but the code's
lookup (`_process_lead`, engine.py 386-390) consults only handle then domain
and picks lead 2; no channel lookup exists. -/
theorem C3_counterexample :
    lookupSpecC3 [leadChan, leadHand] (some "chan".data) (some "h".data) none = some leadChan ∧
    findExisting [leadChan, leadHand] (some "h".data) none = some leadHand ∧
    leadChan ≠ leadHand := by
  decide

/-- C3 amended: the engine's duplicate lookup is handle-first, then domain —
whenever some lead matches the truthy handle key, that match is returned and
any domain match is ignored; `normalized_channel` is never consulted. -/
theorem C3_amended_thm (leads : List Lead) (h : Str) (nd : Option Str) (A : Lead)
    (hne : h.isEmpty = false) (hfind : findByHandle leads h = some A) :
    findExisting leads (some h) nd = some A := by
  unfold findExisting
  simp only [hne, Bool.false_eq_true, if_false, hfind]

/-- Witness for C3: on a store with both a handle match and a domain match,
the handle match (lead 2) wins. -/
theorem C3_witness :
    findExisting [leadHand, leadDom] (some "h".data) (some "d".data) = some leadHand :=
  C3_amended_thm [leadHand, leadDom] "h".data (some "d".data) leadHand (by decide) (by decide)

theorem newLead_source_counts (raw : Raw) (runId : Str) (id : Nat) :
    (newLead raw runId id).source_counts = 1 := rfl

theorem processLead_inv (env : Env) (rd : Bool) (st : EngState) (raw : Raw) (runId : Str)
    (h : svInv st = true) : svInv (processLead env rd st raw runId).1 = true := by
  have hcons : ∀ (l2 : List Lead),
      (l2.all (fun l => l.source_counts == 1)) = true →
      svInv { store := { leads := l2, sightings := st.store.sightings,
                         nextId := st.store.nextId + 1 }
              stats := { st.stats with new_added := st.stats.new_added + 1 } } = true := by
    intro l2 hall
    unfold svInv at h ⊢
    simp only [Bool.and_eq_true] at h ⊢
    exact ⟨hall, h.2⟩
  have hnew : ∀ l ∈ st.store.leads ++ [newLead raw runId st.store.nextId],
      (l.source_counts == 1) = true := by
    intro l hl
    rcases List.mem_append.mp hl with hm | hm
    · unfold svInv at h
      simp only [Bool.and_eq_true, List.all_eq_true] at h
      exact h.1 l hm
    · rw [List.mem_singleton] at hm
      subst hm
      rfl
  unfold processLead
  split
  · exact h
  · split
    · dsimp only
      split
      · exact h
      · exact h
    · dsimp only
      split
      · exact h
      · split
        · exact h
        · apply hcons
          split
          · exact List.all_eq_true.mpr hnew
          · rw [List.all_eq_true]
            intro l hl
            rw [List.mem_map] at hl
            obtain ⟨m, hm, rfl⟩ := hl
            by_cases hid : m.id = (newLead raw runId st.store.nextId).id
            · rw [if_pos hid, pipeProcess_source_counts]
              rfl
            · rw [if_neg hid]
              exact hnew m hm

/-- C4 counterexample: the claim says `source_counts` equals the number of
SourceSighting rows of the lead.  After ingesting one candidate the stored
lead has `source_counts = 1` while its sighting count is 0: the engine never
creates a `LeadSource` row (engine.py 407-425). -/
theorem C4_counterexample :
    ¬ (∀ l ∈ (processAll trivEnv "r".data [rawSite]).store.leads,
        l.source_counts =
          ((processAll trivEnv "r".data [rawSite]).store.sightings.filter
            (fun s => s.lead_id == l.id)).length) := by
  decide

/-- C4 amended: across any sequence of ingestion operations, every stored lead
keeps `source_counts = 1` (so the counter never decreases) and the sighting
table stays empty — `source_counts` therefore always exceeds the sighting
count by one instead of matching it. -/
theorem C4_amended_thm (env : Env) (runId : Str) (raws : List Raw) :
    svInv (processAll env runId raws) = true := by
  unfold processAll
  have hgen : ∀ (st : EngState), svInv st = true →
      svInv (raws.foldl (fun s raw => (processLead env false s raw runId).1) st) = true := by
    induction raws with
    | nil => intro st h; exact h
    | cons r rs ih =>
      intro st h
      exact ih _ (processLead_inv env false st r runId h)
  exact hgen initState (by decide)

/-- C5 counterexample: the claimed point schedule grants a +10 freshness bonus
for a `launch_date` in the future or within the last 7 days; `score_lead_v2`
(pipeline.py 82-97) never reads `launch_date`, so a lead whose only signal is
an upcoming launch scores 0, not 10. -/
theorem C5_counterexample :
    scoreSpecC5 0 freshLead = 10 ∧ (scoreLeadV2 freshLead).score = 0 ∧ (10 : Nat) ≠ 0 := by
  decide

/-- C5 amended: `score_lead_v2` scores +30 for a domain, +40 for an X handle,
+20 for a telegram url, +10 for an email, capped at 100, and is independent of
`launch_date` — there is no freshness bonus. -/
theorem C5_amended_thm (lead : Lead) (d : Option Int) :
    (scoreLeadV2 lead).score =
      min ((if tr lead.domain then 30 else 0) + (if tr lead.twitter_handle then 40 else 0) +
        (if tr lead.telegram_url then 20 else 0) + (if tr lead.email then 10 else 0)) 100 ∧
    (scoreLeadV2 { lead with launch_date := d }).score = (scoreLeadV2 lead).score := by
  have hs : ∀ m : Lead, (scoreLeadV2 m).score =
      min ((if tr m.domain then 30 else 0) + (if tr m.twitter_handle then 40 else 0) +
        (if tr m.telegram_url then 20 else 0) + (if tr m.email then 10 else 0)) 100 := by
    intro m
    simp only [scoreLeadV2]
    repeat' split
    all_goals rfl
  exact ⟨hs lead, by rw [hs lead, hs { lead with launch_date := d }]⟩

/-- C6 counterexample: the claimed bucket decision routes a lead with neither
domain nor handle but a future `launch_date` to `UPCOMING_WATCHLIST`;
`score_lead_v2` (pipeline.py 104-118) has no such branch and returns
`MANUAL_CHECK`. -/
theorem C6_counterexample :
    bucketSpecC6 0 freshLead = "UPCOMING_WATCHLIST".data ∧
    (scoreLeadV2 freshLead).bucket = some "MANUAL_CHECK".data ∧
    "UPCOMING_WATCHLIST".data ≠ ("MANUAL_CHECK".data : Str) := by
  decide

/-- C6 amended: `score_lead_v2` decides bucket and status in order — domain
and handle give `READY_TO_DM`/`Qualified`, domain alone gives
`NEEDS_ALT_OUTREACH`/`Qualified`, and everything else (`launch_date`
included — there is no watchlist branch) gives `MANUAL_CHECK`/`Enriched`. -/
theorem C6_amended_thm (lead : Lead) (d : Option Int) :
    ((scoreLeadV2 lead).bucket =
      some (if tr lead.domain && tr lead.twitter_handle then "READY_TO_DM".data
        else if tr lead.domain then "NEEDS_ALT_OUTREACH".data
        else "MANUAL_CHECK".data)) ∧
    ((scoreLeadV2 lead).status =
      (if tr lead.domain && tr lead.twitter_handle then "Qualified".data
        else if tr lead.domain then "Qualified".data
        else "Enriched".data)) ∧
    (scoreLeadV2 { lead with launch_date := d }).bucket = (scoreLeadV2 lead).bucket ∧
    (scoreLeadV2 { lead with launch_date := d }).status = (scoreLeadV2 lead).status := by
  have hb : ∀ m : Lead, (scoreLeadV2 m).bucket =
      some (if tr m.domain && tr m.twitter_handle then "READY_TO_DM".data
        else if tr m.domain then "NEEDS_ALT_OUTREACH".data
        else "MANUAL_CHECK".data) := by
    intro m
    simp only [scoreLeadV2]
    repeat' split
    all_goals simp_all
  have hst : ∀ m : Lead, (scoreLeadV2 m).status =
      (if tr m.domain && tr m.twitter_handle then "Qualified".data
        else if tr m.domain then "Qualified".data
        else "Enriched".data) := by
    intro m
    simp only [scoreLeadV2]
    repeat' split
    all_goals simp_all
  refine ⟨hb lead, hst lead, ?_, ?_⟩
  · rw [hb lead, hb { lead with launch_date := d }]
  · rw [hst lead, hst { lead with launch_date := d }]

/-- C7 counterexample: the claim says a duplicate-key failure during insert is
recovered by re-querying and merging, and the candidate is not dropped.
Injecting the insert failure on a fresh store, the store stays empty (no lead,
no merge), `failed_ingestion` becomes 1 and the call reports `False`: the
generic handler (engine.py 441-444) drops the candidate. -/
theorem C7_counterexample :
    (processLead trivEnv true initState rawSite "r".data).1.store.leads = [] ∧
    (processLead trivEnv true initState rawSite "r".data).1.stats.failed_ingestion = 1 ∧
    (processLead trivEnv true initState rawSite "r".data).2 = false := by
  decide

/-- C7 amended: an insert failure never propagates out of `_process_lead`, but
there is no recovery either — the session is rolled back, the candidate is
dropped and counted in `failed_ingestion`, and the call returns `False`
instead of falling into a merge. -/
theorem C7_amended_thm (env : Env) (st : EngState) (raw : Raw) (runId : Str)
    (hguard : (!tr raw.website && !tr raw.twitter_handle) = false)
    (hnone : findExisting st.store.leads (candNormHandle raw) (candNormDomain raw) = none) :
    processLead env true st raw runId =
      ({ st with stats :=
          { st.stats with failed_ingestion := st.stats.failed_ingestion + 1 } }, false) := by
  unfold processLead
  rw [hguard]
  simp only [Bool.false_eq_true, if_false, hnone, if_true]

/-- Witness for C7: the injected insert failure on an empty store. -/
theorem C7_witness :
    processLead trivEnv true initState rawSite "r".data =
      ({ initState with stats :=
          { initState.stats with failed_ingestion := initState.stats.failed_ingestion + 1 } },
        false) :=
  C7_amended_thm trivEnv initState rawSite "r".data (by decide) (by decide)

/-- C8 counterexample: the claim says a run against a source that only ever
yields 3 distinct identities terminates early via a stagnation rule, not by
the max-loop ceiling.  The code has no stagnation counter: the run loops the
full 41 rounds (the `loops > 40` safety break at engine.py 350-352 is the only
exit besides the target), skipping the same 3 duplicates 40 more times. -/
theorem C8_counterexample :
    (runCollectionPhase trivEnv [rawA, rawB, rawC] "r".data).stats.loops = 41 ∧
    (runCollectionPhase trivEnv [rawA, rawB, rawC] "r".data).stats.new_added = 3 ∧
    (runCollectionPhase trivEnv [rawA, rawB, rawC] "r".data).stats.duplicates_skipped = 120 := by
  set_option maxRecDepth 10000 in decide

/-- C8 amended: a run whose source only ever yields 3 distinct identities
(target 50, hard-coded) terminates by the 40-loop safety ceiling — the loop
counter ends one past the limit — with `new_added = 3` and exactly those 3
leads stored; no stagnation rule exists. -/
theorem C8_amended_thm :
    (runCollectionPhase trivEnv [rawA, rawB, rawC] "r".data).stats.new_added = 3 ∧
    (runCollectionPhase trivEnv [rawA, rawB, rawC] "r".data).store.leads.length = 3 ∧
    40 < (runCollectionPhase trivEnv [rawA, rawB, rawC] "r".data).stats.loops := by
  set_option maxRecDepth 10000 in decide

/-- C9 counterexample: normalization is claimed idempotent, but the engine's
domain normalization re-fed its own output breaks on a domain containing
`"http"` as a substring: `https://httpd.apache.org` normalizes to
`httpd.apache.org`, which on a second pass is treated as already carrying a
scheme (the `"http" not in url` test at engine.py 374), parses with an empty
netloc and collapses to the empty string. -/
theorem C9_counterexample :
    engNormDomain "https://httpd.apache.org".data = "httpd.apache.org".data ∧
    engNormDomain (engNormDomain "https://httpd.apache.org".data) = [] ∧
    engNormDomain (engNormDomain "https://httpd.apache.org".data) ≠
      engNormDomain "https://httpd.apache.org".data := by
  decide

/-- C9 amended: normalization is deterministic (the embedding is functional),
and idempotence holds with the corner cases excluded: the pipeline's handle
normalization is idempotent unconditionally; the engine's handle
normalization is idempotent whenever the normalized handle carries no
surrounding whitespace; the engine's domain normalization is idempotent
whenever the normalized domain does not contain `"http"` or `"www."` as a
substring; and the pipeline's domain normalization is idempotent whenever the
normalized domain re-parses without a scheme and has no `"www."`. -/
theorem C9_amended_thm :
    (∀ s : Str, pipeNormHandle (pipeNormHandle s) = pipeNormHandle s) ∧
    (∀ h0 : Str, pyStrip (engNormHandle h0) = engNormHandle h0 →
      engNormHandle (engNormHandle h0) = engNormHandle h0) ∧
    (∀ w : Str, isSub "http".data (engNormDomain w) = false →
      isSub "www.".data (engNormDomain w) = false →
      engNormDomain (engNormDomain w) = engNormDomain w) ∧
    (∀ w : Str, (urlparse (pipeNormDomain w)).scheme = [] →
      isSub "www.".data (pipeNormDomain w) = false →
      pipeNormDomain (pipeNormDomain w) = pipeNormDomain w) :=
  ⟨fun s => pyLower_idem s,
   fun _ h => engNormHandle_idem h,
   fun _ h1 h2 => engNormDomain_idem h1 h2,
   fun _ h1 h2 => pipeNormDomain_idem h1 h2⟩

/-- Witness for C9: ordinary handles and domains satisfy the side conditions
and round-trip unchanged. -/
theorem C9_witness :
    pipeNormHandle (pipeNormHandle "@Acme".data) = pipeNormHandle "@Acme".data ∧
    engNormHandle (engNormHandle "@Acme".data) = engNormHandle "@Acme".data ∧
    engNormDomain (engNormDomain "https://Acme.io".data) = engNormDomain "https://Acme.io".data ∧
    pipeNormDomain (pipeNormDomain "https://acme.io".data) =
      pipeNormDomain "https://acme.io".data :=
  ⟨C9_amended_thm.1 _,
   C9_amended_thm.2.1 _ (by decide),
   C9_amended_thm.2.2.1 _ (by decide) (by decide),
   C9_amended_thm.2.2.2 _ (by decide) (by decide)⟩

/-- C10: when another lead already holds the lead's (re-)normalized domain,
`process_lead` marks the lead `Disqualified` with reject reason
`Duplicate Domain` and returns before scraping and scoring, keeping the
conflicting key and every other field; likewise for a handle conflict after
the handle-normalization step, with reason `Duplicate Handle`.  The row is
mutated in place, never deleted. -/
theorem C10_duplicate_disqualification :
    (∀ (env : Env) (leads : List Lead) (lead other : Lead),
      other ∈ leads → other.id ≠ (pipeStep0 lead).id →
      other.normalized_domain = (pipeStep0 lead).normalized_domain →
      tr (pipeStep0 lead).normalized_domain = true →
      pipeProcess env leads lead =
        { pipeStep0 lead with
            status := "Disqualified".data
            reject_reason := some "Duplicate Domain".data }) ∧
    (∀ (env : Env) (leads : List Lead) (lead other : Lead),
      lead.domain = none → lead.normalized_domain = none →
      tr lead.twitter_handle = true → other ∈ leads → other.id ≠ lead.id →
      other.normalized_handle = some (pipeNormHandle (lead.twitter_handle.getD [])) →
      pipeProcess env leads lead =
        { lead with
            normalized_handle := some (pipeNormHandle (lead.twitter_handle.getD []))
            status := "Disqualified".data
            reject_reason := some "Duplicate Handle".data }) := by
  constructor
  · intro env leads lead other hmem hid hdom htr
    have hc : domConflict leads (pipeStep0 lead) = true := by
      unfold domConflict
      rw [htr]
      simp only [Bool.true_and]
      exact List.any_eq_true.mpr ⟨other, hmem, by simp [hdom, hid]⟩
    simp only [pipeProcess, hc, if_true]
  · intro env leads lead other hdomn hnd htw hmem hid hh
    have h0 : pipeStep0 lead = lead := by
      unfold pipeStep0
      rw [hdomn]
    have hdc : domConflict leads lead = false := by
      unfold domConflict
      simp [hnd, tr]
    have hscrape : pipeScrape env lead = lead := by
      unfold pipeScrape
      simp [hdomn, tr]
    have hsearch : pipeSearch env lead = lead := by
      unfold pipeSearch
      simp [htw]
    have htrh : tr (some (pipeNormHandle (lead.twitter_handle.getD []))) = true := by
      cases hv : lead.twitter_handle with
      | none => rw [hv] at htw; simp [tr] at htw
      | some v =>
        rw [hv] at htw
        simp only [tr, Bool.not_eq_true'] at htw ⊢
        simpa [Option.getD, pipeNormHandle, pyLower_isEmpty] using htw
    have hhc : handleConflict leads
        { lead with normalized_handle := some (pipeNormHandle (lead.twitter_handle.getD [])) }
          = true := by
      unfold handleConflict
      simp only [htrh]
      rw [Bool.true_and]
      exact List.any_eq_true.mpr ⟨other, hmem, by simp [hh, hid]⟩
    simp only [pipeProcess, h0, hdc, Bool.false_eq_true, if_false, hscrape, hsearch, htw,
      if_true, hhc]

/-- Witness for C10: both disqualification branches fire on concrete stores. -/
theorem C10_witness :
    pipeProcess trivEnv [leadDomAcme] dupDomLead =
      { pipeStep0 dupDomLead with
          status := "Disqualified".data
          reject_reason := some "Duplicate Domain".data } ∧
    pipeProcess trivEnv [dupHandOther] dupHandLead =
      { dupHandLead with
          normalized_handle := some (pipeNormHandle (dupHandLead.twitter_handle.getD []))
          status := "Disqualified".data
          reject_reason := some "Duplicate Handle".data } :=
  ⟨C10_duplicate_disqualification.1 trivEnv [leadDomAcme] dupDomLead leadDomAcme
      (by decide) (by decide) (by decide) (by decide),
   C10_duplicate_disqualification.2 trivEnv [dupHandOther] dupHandLead dupHandOther
      (by decide) (by decide) (by decide) (by decide) (by decide) (by decide)⟩

/-! ## UNIQUE-constraint lemmas for the C1 invariant -/

theorem keyClash_nil (f : Lead → Option Str) (row : Lead) : keyClash f [] row = false := by
  unfold keyClash
  cases f row <;> simp

theorem keyClash_cons {f : Lead → Option Str} {o : Lead} {t : List Lead} {row : Lead}
    (h : keyClash f (o :: t) row = false) : keyClash f t row = false := by
  unfold keyClash at h ⊢
  cases hr : f row with
  | none => rfl
  | some v =>
    rw [hr] at h
    simp only [List.any_cons, Bool.or_eq_false_iff] at h
    exact h.2

theorem keyClash_head {f : Lead → Option Str} {o : Lead} {t : List Lead} {row : Lead}
    (h : keyClash f (o :: t) row = false) :
    ∀ v, f row = some v → (f o == some v) = false := by
  intro v hv
  unfold keyClash at h
  rw [hv] at h
  simp only [List.any_cons, Bool.or_eq_false_iff] at h
  exact h.1

theorem noDupKey_append {f : Lead → Option Str} {t : List Lead} {row : Lead}
    (h1 : noDupKey f t = true) (h2 : keyClash f t row = false) :
    noDupKey f (t ++ [row]) = true := by
  induction t with
  | nil =>
    simp [noDupKey, keyClash_nil]
  | cons o t ih =>
    simp only [List.cons_append, noDupKey, Bool.and_eq_true] at h1 ⊢
    obtain ⟨ho, ht⟩ := h1
    refine ⟨?_, ih ht (keyClash_cons h2)⟩
    rw [Bool.not_eq_true']
    unfold keyClash
    cases ho2 : f o with
    | none => rfl
    | some w =>
      show ((t ++ [row]).any fun o => f o == some w) = false
      rw [List.any_append]
      simp only [Bool.or_eq_false_iff]
      constructor
      · rw [Bool.not_eq_true'] at ho
        unfold keyClash at ho
        rw [ho2] at ho
        exact ho
      · simp only [List.any_cons, List.any_nil, Bool.or_false]
        cases hr : f row with
        | none => simp
        | some v =>
          have hd := keyClash_head h2 v hr
          rw [ho2] at hd
          simp only [beq_eq_false_iff_ne, ne_eq, Option.some.injEq] at hd ⊢
          exact fun hvw => hd hvw.symm

theorem noDupKey_of_none {f : Lead → Option Str} {t : List Lead}
    (h : ∀ l ∈ t, f l = none) : noDupKey f t = true := by
  induction t with
  | nil => rfl
  | cons o t ih =>
    simp only [noDupKey, Bool.and_eq_true]
    refine ⟨?_, ih (fun l hl => h l (List.mem_cons_of_mem _ hl))⟩
    rw [Bool.not_eq_true']
    unfold keyClash
    rw [h o (List.mem_cons_self _ _)]

theorem map_id_of_fresh (lid : Nat) (lead' : Lead) :
    ∀ (leads : List Lead), (∀ o ∈ leads, o.id ≠ lid) →
      leads.map (fun l => if l.id = lid then lead' else l) = leads := by
  intro leads
  induction leads with
  | nil => intro _; rfl
  | cons o t ih =>
    intro hfresh
    simp only [List.map_cons]
    rw [if_neg (hfresh o (List.mem_cons_self _ _)),
      ih (fun x hx => hfresh x (List.mem_cons_of_mem _ hx))]

theorem map_replace_last (leads : List Lead) (lead lead' : Lead)
    (hfresh : ∀ o ∈ leads, o.id ≠ lead.id) :
    (leads ++ [lead]).map (fun l => if l.id = lead.id then lead' else l) =
      leads ++ [lead'] := by
  rw [List.map_append, map_id_of_fresh lead.id lead' leads hfresh]
  simp

theorem newLead_id (raw : Raw) (runId : Str) (id : Nat) : (newLead raw runId id).id = id := rfl

theorem newLead_channel (raw : Raw) (runId : Str) (id : Nat) :
    (newLead raw runId id).telegram_channel = none := rfl

theorem dbInv_snoc (st : EngState) (row : Lead) (stats' : Stats)
    (h : dbInv st = true)
    (hid : row.id = st.store.nextId)
    (hchan : row.telegram_channel = none)
    (hclash : commitViolates st.store.leads row = false) :
    dbInv { store := { leads := st.store.leads ++ [row], sightings := st.store.sightings,
                       nextId := st.store.nextId + 1 }
            stats := stats' } = true := by
  unfold dbInv at h ⊢
  unfold commitViolates at hclash
  simp only [Bool.and_eq_true, Bool.or_eq_false_iff, List.all_eq_true] at h hclash ⊢
  obtain ⟨⟨⟨hids, hch⟩, hd⟩, hh⟩ := h
  refine ⟨⟨⟨?_, ?_⟩, ?_⟩, ?_⟩
  · intro l hl
    rcases List.mem_append.mp hl with hm | hm
    · have := hids l hm
      simp only [decide_eq_true_eq] at this ⊢
      omega
    · rw [List.mem_singleton] at hm
      subst hm
      simp only [decide_eq_true_eq, hid]
      omega
  · intro l hl
    rcases List.mem_append.mp hl with hm | hm
    · exact hch l hm
    · rw [List.mem_singleton] at hm
      subst hm
      simp [hchan]
  · exact noDupKey_append hd hclash.1
  · exact noDupKey_append hh hclash.2

theorem processLead_dbInv (env : Env) (rd : Bool) (st : EngState) (raw : Raw) (runId : Str)
    (h : dbInv st = true) : dbInv (processLead env rd st raw runId).1 = true := by
  have hfresh : ∀ o ∈ st.store.leads, o.id ≠ (newLead raw runId st.store.nextId).id := by
    intro o ho he
    unfold dbInv at h
    simp only [Bool.and_eq_true, List.all_eq_true] at h
    have := h.1.1.1 o ho
    simp only [decide_eq_true_eq] at this
    simp only [newLead] at he
    omega
  unfold processLead
  split
  · exact h
  · split
    · dsimp only
      split
      · exact h
      · exact h
    · dsimp only
      split
      · exact h
      · split
        · exact h
        · next hins =>
          have hins' :
              commitViolates st.store.leads (newLead raw runId st.store.nextId) = false :=
            eq_false_of_ne_true hins
          split
          · exact dbInv_snoc st _ _ h (newLead_id raw runId st.store.nextId)
              (newLead_channel raw runId st.store.nextId) hins'
          · next hupd =>
            have hupd' : commitViolates st.store.leads
                (pipeProcess env (st.store.leads ++ [newLead raw runId st.store.nextId])
                  (newLead raw runId st.store.nextId)) = false :=
              eq_false_of_ne_true hupd
            rw [map_replace_last st.store.leads _ _ hfresh]
            exact dbInv_snoc st _ _ h
              (by rw [pipeProcess_id, newLead_id])
              (by rw [pipeProcess_channel, newLead_channel]) hupd'

/-- C1: for every sequence of raw candidates run through the ingestion path
(`_process_lead` with its enrichment trigger, over the committed database
state with the UNIQUE constraints of models.py 12-13 enforced at each
`db.commit()`), the lead store never contains two rows with the same non-null
`normalized_domain`, nor two with the same non-null `normalized_handle`, nor
two with the same non-null `telegram_channel`: the engine's dedup lookup and
the constraint-checked commits preserve key uniqueness (a violating enrichment
update raises `IntegrityError`, is swallowed at engine.py 434, and is never
persisted), and the ingestion path never writes `telegram_channel` at all. -/
theorem C1_store_uniqueness (env : Env) (runId : Str) (raws : List Raw) :
    storeUnique (processAll env runId raws) = true := by
  have hdb : dbInv (processAll env runId raws) = true := by
    unfold processAll
    have hgen : ∀ st : EngState, dbInv st = true →
        dbInv (raws.foldl (fun s raw => (processLead env false s raw runId).1) st) = true := by
      induction raws with
      | nil => intro st h; exact h
      | cons r rs ih =>
        intro st h
        exact ih _ (processLead_dbInv env false st r runId h)
    exact hgen initState (by decide)
  unfold dbInv at hdb
  unfold storeUnique
  simp only [Bool.and_eq_true] at hdb ⊢
  obtain ⟨⟨⟨_, hch⟩, hd⟩, hh⟩ := hdb
  refine ⟨⟨hd, hh⟩, ?_⟩
  apply noDupKey_of_none
  intro l hl
  rw [List.all_eq_true] at hch
  have := hch l hl
  simpa using this
